import Mathlib

/-!
Verification of the dual-number forward-mode automatic differentiation core
(the `Dual` struct and its operator and trait implementations in
`src/main.rs`).

Floating-point values are modelled by the type `FP`: exact real numbers for
finite values (rounding is not modelled, since every property under study is
about the exact arithmetic formula an operation computes), plus the IEEE
special values positive infinity, negative infinity and NaN.  Signed zero is
not modelled; the finite value 0 plays the role of IEEE +0, which matches
every literal zero appearing in the properties below.  All operations follow
the IEEE special-value rules (0 * inf = NaN, x / 0 = +-inf or NaN, and so on),
which is exactly how Rust f64 arithmetic behaves: no operation ever panics.
-/

namespace DualAD

noncomputable section

/-- Model of an f64 value: a finite real, one of the two infinities, or NaN. -/
inductive FP where
  | finite (v : ℝ)
  | posInf
  | negInf
  | nan

namespace FP

/-- Whether the value is an ordinary finite number (not an infinity, not NaN). -/
def isFinite : FP → Bool
  | finite _ => true
  | posInf => false
  | negInf => false
  | nan => false

/-- IEEE negation (sign of zero collapsed). -/
def neg : FP → FP
  | finite v => finite (-v)
  | posInf => negInf
  | negInf => posInf
  | nan => nan

/-- IEEE addition on the model. -/
def add : FP → FP → FP
  | finite a, finite b => finite (a + b)
  | finite _, posInf => posInf
  | finite _, negInf => negInf
  | finite _, nan => nan
  | posInf, finite _ => posInf
  | posInf, posInf => posInf
  | posInf, negInf => nan
  | posInf, nan => nan
  | negInf, finite _ => negInf
  | negInf, posInf => nan
  | negInf, negInf => negInf
  | negInf, nan => nan
  | nan, _ => nan

/-- IEEE subtraction: adding the negation (exact for f64). -/
def sub (a b : FP) : FP := add a (neg b)

/-- IEEE multiplication on the model; 0 * inf = NaN. -/
def mul : FP → FP → FP
  | finite a, finite b => finite (a * b)
  | finite a, posInf => if a = 0 then nan else if 0 < a then posInf else negInf
  | finite a, negInf => if a = 0 then nan else if 0 < a then negInf else posInf
  | finite _, nan => nan
  | posInf, finite b => if b = 0 then nan else if 0 < b then posInf else negInf
  | posInf, posInf => posInf
  | posInf, negInf => negInf
  | posInf, nan => nan
  | negInf, finite b => if b = 0 then nan else if 0 < b then negInf else posInf
  | negInf, posInf => negInf
  | negInf, negInf => posInf
  | negInf, nan => nan
  | nan, _ => nan

/-- IEEE division on the model; the divisor zero acts as +0, so
x / 0 is +inf for positive x, -inf for negative x, NaN for x = 0. -/
def div : FP → FP → FP
  | finite a, finite b =>
      if b = 0 then (if a = 0 then nan else if 0 < a then posInf else negInf)
      else finite (a / b)
  | finite _, posInf => finite 0
  | finite _, negInf => finite 0
  | finite _, nan => nan
  | posInf, finite b => if 0 ≤ b then posInf else negInf
  | posInf, posInf => nan
  | posInf, negInf => nan
  | posInf, nan => nan
  | negInf, finite b => if 0 ≤ b then negInf else posInf
  | negInf, posInf => nan
  | negInf, negInf => nan
  | negInf, nan => nan
  | nan, _ => nan

/-- Model of f64::exp. -/
def fexp : FP → FP
  | finite v => finite (Real.exp v)
  | posInf => posInf
  | negInf => finite 0
  | nan => nan

/-- Model of f64::ln: negative infinity at 0, NaN on negative inputs. -/
def flog : FP → FP
  | finite v => if v = 0 then negInf else if 0 < v then finite (Real.log v) else nan
  | posInf => posInf
  | negInf => nan
  | nan => nan

/-- Model of f64::sin: NaN on infinities. -/
def fsin : FP → FP
  | finite v => finite (Real.sin v)
  | posInf => nan
  | negInf => nan
  | nan => nan

/-- Model of f64::cos: NaN on infinities. -/
def fcos : FP → FP
  | finite v => finite (Real.cos v)
  | posInf => nan
  | negInf => nan
  | nan => nan

/-- Model of f64::tan: NaN on infinities. -/
def ftan : FP → FP
  | finite v => finite (Real.tan v)
  | posInf => nan
  | negInf => nan
  | nan => nan

/-- Model of f64::powi with an integer exponent.  On a finite base it is the
exact integer power, except that a zero base with a negative exponent gives
+inf (repeated multiplication ends in a division 1 / +0). -/
def fpowi : FP → ℤ → FP
  | finite v, n => if v = 0 ∧ n < 0 then posInf else finite (v ^ n)
  | posInf, n => if n = 0 then finite 1 else if 0 < n then posInf else finite 0
  | negInf, n =>
      if n = 0 then finite 1
      else if 0 < n then (if n % 2 = 0 then posInf else negInf)
      else finite 0
  | nan, n => if n = 0 then finite 1 else nan

end FP

/-- Wrap an integer into the i32 range, as Rust release-mode i32 arithmetic
does on overflow: subtracting 1 from i32::MIN wraps around to i32::MAX. -/
def wrapI32 (z : ℤ) : ℤ := (z + 2 ^ 31) % 2 ^ 32 - 2 ^ 31

/-- The dual number of `src/main.rs`: value `x` and tangent `dx`. -/
structure Dual where
  x : FP
  dx : FP

namespace Dual

/-- impl Neg for Dual. -/
def neg (a : Dual) : Dual := ⟨FP.neg a.x, FP.neg a.dx⟩

/-- impl Add for Dual. -/
def add (a b : Dual) : Dual := ⟨FP.add a.x b.x, FP.add a.dx b.dx⟩

/-- impl Sub for Dual. -/
def sub (a b : Dual) : Dual := ⟨FP.sub a.x b.x, FP.sub a.dx b.dx⟩

/-- impl Mul for Dual: value x*y, tangent x*dy + dx*y. -/
def mul (a b : Dual) : Dual :=
  ⟨FP.mul a.x b.x, FP.add (FP.mul a.x b.dx) (FP.mul a.dx b.x)⟩

/-- impl Div for Dual: value x/y, tangent (dx*y - x*dy) / (y*y). -/
def div (a b : Dual) : Dual :=
  ⟨FP.div a.x b.x,
   FP.div (FP.sub (FP.mul a.dx b.x) (FP.mul a.x b.dx)) (FP.mul b.x b.x)⟩

/-- impl Add of f64 for Dual: the scalar only shifts the value. -/
def addScalar (a : Dual) (c : FP) : Dual := ⟨FP.add a.x c, a.dx⟩

/-- impl Sub of f64 for Dual: the scalar only shifts the value. -/
def subScalar (a : Dual) (c : FP) : Dual := ⟨FP.sub a.x c, a.dx⟩

/-- impl Mul of f64 for Dual: both components scaled. -/
def mulScalar (a : Dual) (c : FP) : Dual := ⟨FP.mul a.x c, FP.mul a.dx c⟩

/-- impl Div of f64 for Dual: both components divided. -/
def divScalar (a : Dual) (c : FP) : Dual := ⟨FP.div a.x c, FP.div a.dx c⟩

/-- Ops::exp for Dual, exactly as written in the source: the value is
exp(x) but the tangent is computed as `self.x * self.dx.exp()`,
that is x * exp(dx). -/
def exp (a : Dual) : Dual := ⟨FP.fexp a.x, FP.mul a.x (FP.fexp a.dx)⟩

/-- Ops::ln for Dual: value ln(x), tangent dx / x. -/
def ln (a : Dual) : Dual := ⟨FP.flog a.x, FP.div a.dx a.x⟩

/-- Ops::sin for Dual: value sin(x), tangent cos(x) * dx. -/
def sin (a : Dual) : Dual := ⟨FP.fsin a.x, FP.mul (FP.fcos a.x) a.dx⟩

/-- Ops::cos for Dual: value cos(x), tangent -sin(x) * dx. -/
def cos (a : Dual) : Dual := ⟨FP.fcos a.x, FP.mul (FP.neg (FP.fsin a.x)) a.dx⟩

/-- Ops::tan for Dual: value tan(x), tangent dx * (tan(x)*tan(x) + 1). -/
def tan (a : Dual) : Dual :=
  ⟨FP.ftan a.x, FP.mul a.dx (FP.add (FP.mul (FP.ftan a.x) (FP.ftan a.x)) (FP.finite 1))⟩

/-- Ops::powi for Dual: value x.powi(n), tangent (n as f64) * x.powi(n - 1) * dx,
with the multiplications associated to the left as in the source.  The
exponent n is an i32 (modelled as an integer in the i32 range), and the
source computes n - 1 in i32 arithmetic, which wraps around at n = i32::MIN
under release semantics, so the model wraps the decremented exponent
explicitly. -/
def powi (a : Dual) (n : ℤ) : Dual :=
  ⟨FP.fpowi a.x n,
   FP.mul (FP.mul (FP.finite (n : ℝ)) (FP.fpowi a.x (wrapI32 (n - 1)))) a.dx⟩

end Dual

/-- impl Div of Dual for f64: value c / x, tangent -(c * dx) / (x * x). -/
def scalarDivDual (c : FP) (a : Dual) : Dual :=
  ⟨FP.div c a.x,
   FP.div (FP.neg (FP.mul c a.dx)) (FP.mul a.x a.x)⟩

/-- Sigmoid::sigmoid default method: 1 / (exp(-self) + 1), chained through
the Neg, Ops::exp, Add of f64 and Div of Dual for f64 implementations. -/
def Dual.sigmoid (a : Dual) : Dual :=
  scalarDivDual (FP.finite 1) (Dual.addScalar (Dual.exp (Dual.neg a)) (FP.finite 1))

/-- Multiplication on the FP model is commutative (finite products commute,
the sign analysis for infinities is symmetric, NaN absorbs on both sides). -/
theorem FP.mul_swap : ∀ a b : FP, FP.mul a b = FP.mul b a := by
  intro a b
  cases a <;> cases b <;> simp [FP.mul, mul_comm]

/-- Addition on the FP model is commutative. -/
theorem FP.add_swap : ∀ a b : FP, FP.add a b = FP.add b a := by
  intro a b
  cases a <;> cases b <;> simp [FP.add, add_comm]

/-- NaN absorbs multiplication on the left. -/
theorem FP.nan_mul : ∀ y : FP, FP.mul FP.nan y = FP.nan := by
  intro y; cases y <;> simp [FP.mul]

/-- The i32 wrap is the identity on integers already inside the i32 range. -/
theorem wrapI32_eq_self (z : ℤ) (h1 : -2147483648 ≤ z) (h2 : z < 2147483648) :
    wrapI32 z = z := by
  have e1 : (2 : ℤ) ^ 31 = 2147483648 := by norm_num
  have e2 : (2 : ℤ) ^ 32 = 4294967296 := by norm_num
  unfold wrapI32
  rw [e1, e2]
  omega

/-- Dividing a finite value by (positive) zero yields an infinity or NaN,
never a finite value. -/
theorem FP.div_finite_zero_not_finite (t : ℝ) :
    (FP.div (FP.finite t) (FP.finite 0)).isFinite = false := by
  have h : FP.div (FP.finite t) (FP.finite 0)
      = if t = 0 then FP.nan else if 0 < t then FP.posInf else FP.negInf := by
    simp [FP.div]
  rw [h]
  split_ifs <;> rfl

/-- Dividing any FP value by (positive) zero yields an infinity or NaN. -/
theorem FP.div_zero_denom_not_finite (a : FP) :
    (FP.div a (FP.finite 0)).isFinite = false := by
  cases a with
  | finite t => exact FP.div_finite_zero_not_finite t
  | posInf => simp [FP.div, FP.isFinite]
  | negInf => simp [FP.div, FP.isFinite]
  | nan => rfl

/-- The tangent of a dual division by a zero-valued dual (finite components)
is an infinity or NaN: its denominator is 0 * 0 = 0. -/
theorem div_zero_tangent_aux (x dx dy : ℝ) :
    ((Dual.div ⟨FP.finite x, FP.finite dx⟩ ⟨FP.finite 0, FP.finite dy⟩).dx).isFinite
      = false := by
  show (FP.div
      (FP.sub (FP.mul (FP.finite dx) (FP.finite 0)) (FP.mul (FP.finite x) (FP.finite dy)))
      (FP.mul (FP.finite 0) (FP.finite 0))).isFinite = false
  simp only [FP.mul, FP.sub, FP.neg, FP.add, zero_mul, mul_zero]
  exact FP.div_finite_zero_not_finite _

/-- C3: all core operations are modelled as total functions into FP values
(as in Rust, where no f64 operation panics), and the domain violations named
by the spec produce non-finite special values rather than errors:
ln of a non-positive value, dual division by a zero-valued dual, and
scalar-over-dual division with a zero value. -/
theorem c3_domain_violations_special :
    (∀ x dx : ℝ, x ≤ 0 → ((Dual.ln ⟨FP.finite x, FP.finite dx⟩).x).isFinite = false) ∧
    (∀ (a : Dual) (dy : FP), ((Dual.div a ⟨FP.finite 0, dy⟩).x).isFinite = false) ∧
    (∀ x dx dy : ℝ,
      ((Dual.div ⟨FP.finite x, FP.finite dx⟩ ⟨FP.finite 0, FP.finite dy⟩).dx).isFinite
        = false) ∧
    (∀ (c : FP) (a : Dual), a.x = FP.finite 0 → ((scalarDivDual c a).x).isFinite = false) := by
  refine ⟨?_, ?_, ?_, ?_⟩
  · intro x dx h
    show (FP.flog (FP.finite x)).isFinite = false
    by_cases hx : x = 0
    · simp [FP.flog, FP.isFinite, hx]
    · have hlt : ¬ 0 < x := not_lt.mpr h
      simp [FP.flog, FP.isFinite, hx, hlt]
  · intro a dy
    exact FP.div_zero_denom_not_finite a.x
  · intro x dx dy
    exact div_zero_tangent_aux x dx dy
  · intro c a ha
    show (FP.div c a.x).isFinite = false
    rw [ha]
    exact FP.div_zero_denom_not_finite c

/-- Witness for C3: ln at (0,1), division by (0,1), and 5 / (0,1). -/
theorem c3_domain_violations_special_witness :
    ((Dual.ln ⟨FP.finite 0, FP.finite 1⟩).x).isFinite = false ∧
    ((Dual.div ⟨FP.finite 1, FP.finite 1⟩ ⟨FP.finite 0, FP.finite 1⟩).dx).isFinite = false ∧
    ((scalarDivDual (FP.finite 5) ⟨FP.finite 0, FP.finite 1⟩).x).isFinite = false :=
  ⟨c3_domain_violations_special.1 0 1 le_rfl,
   c3_domain_violations_special.2.2.1 1 1 1,
   c3_domain_violations_special.2.2.2 (FP.finite 5) ⟨FP.finite 0, FP.finite 1⟩ rfl⟩

/-- C4: dual division follows the quotient rule on finite inputs with a
non-zero divisor value, and a zero divisor value makes both result
components non-finite special values rather than an error. -/
theorem c4_div_quotient_rule :
    (∀ x dx y dy : ℝ, y ≠ 0 →
      Dual.div ⟨FP.finite x, FP.finite dx⟩ ⟨FP.finite y, FP.finite dy⟩ =
        ⟨FP.finite (x / y), FP.finite ((dx * y - x * dy) / (y * y))⟩) ∧
    (∀ x dx dy : ℝ,
      ((Dual.div ⟨FP.finite x, FP.finite dx⟩ ⟨FP.finite 0, FP.finite dy⟩).x).isFinite
          = false ∧
      ((Dual.div ⟨FP.finite x, FP.finite dx⟩ ⟨FP.finite 0, FP.finite dy⟩).dx).isFinite
          = false) := by
  constructor
  · intro x dx y dy hy
    have hyy : y * y ≠ 0 := mul_ne_zero hy hy
    simp [Dual.div, FP.div, FP.mul, FP.sub, FP.neg, FP.add, hy, hyy, sub_eq_add_neg]
  · intro x dx dy
    exact ⟨FP.div_finite_zero_not_finite x, div_zero_tangent_aux x dx dy⟩

/-- Witness for C4 at a = (1,1), b = (2,0). -/
theorem c4_div_quotient_rule_witness :
    Dual.div ⟨FP.finite 1, FP.finite 1⟩ ⟨FP.finite 2, FP.finite 0⟩ =
      ⟨FP.finite (1 / 2), FP.finite ((1 * 2 - 1 * 0) / (2 * 2))⟩ :=
  c4_div_quotient_rule.1 1 1 2 0 (by norm_num)

/-- C5: scalar-over-dual division on a non-zero value follows
c / (x,dx) = (c/x, -c*dx/x^2), and 5 / (2,1) = (5/2, -5/4). -/
theorem c5_scalar_div_dual :
    (∀ c x dx : ℝ, x ≠ 0 →
      scalarDivDual (FP.finite c) ⟨FP.finite x, FP.finite dx⟩ =
        ⟨FP.finite (c / x), FP.finite (-c * dx / (x * x))⟩) ∧
    scalarDivDual (FP.finite 5) ⟨FP.finite 2, FP.finite 1⟩ =
      ⟨FP.finite (5 / 2), FP.finite (-(5 / 4))⟩ := by
  constructor
  · intro c x dx hx
    have hxx : x * x ≠ 0 := mul_ne_zero hx hx
    simp [scalarDivDual, FP.div, FP.mul, FP.neg, hx, hxx, neg_mul]
  · norm_num [scalarDivDual, FP.div, FP.mul, FP.neg]

/-- Witness for C5 at c = 5, a = (2,1). -/
theorem c5_scalar_div_dual_witness :
    scalarDivDual (FP.finite 5) ⟨FP.finite 2, FP.finite 1⟩ =
      ⟨FP.finite (5 / 2), FP.finite (-5 * 1 / (2 * 2))⟩ :=
  c5_scalar_div_dual.1 5 2 1 (by norm_num)

/-- C7: ln((0,1)) gives value negative infinity and tangent +infinity (both
non-finite) without any error, and on positive values ln((x,dx)) gives
value ln(x) and tangent dx / x. -/
theorem c7_ln_rule_and_edge :
    Dual.ln ⟨FP.finite 0, FP.finite 1⟩ = ⟨FP.negInf, FP.posInf⟩ ∧
    FP.negInf.isFinite = false ∧ FP.posInf.isFinite = false ∧
    (∀ x dx : ℝ, 0 < x →
      Dual.ln ⟨FP.finite x, FP.finite dx⟩ =
        ⟨FP.finite (Real.log x), FP.finite (dx / x)⟩) := by
  refine ⟨?_, rfl, rfl, ?_⟩
  · norm_num [Dual.ln, FP.flog, FP.div]
  · intro x dx hx
    have hx0 : x ≠ 0 := ne_of_gt hx
    simp [Dual.ln, FP.flog, FP.div, hx, hx0]

/-- Witness for C7 at x = 1, dx = 1. -/
theorem c7_ln_rule_and_edge_witness :
    Dual.ln ⟨FP.finite 1, FP.finite 1⟩ =
      ⟨FP.finite (Real.log 1), FP.finite (1 / 1)⟩ :=
  c7_ln_rule_and_edge.2.2.2 1 1 (by norm_num)

/-- C8 counterexample: at x = 0, n = 0 the claimed real-valued tangent
formula n * x^(n-1) * dx fails: the code returns a NaN tangent (it computes
0 * 0.powi(-1) = 0 * inf), which is not the finite value the formula gives
under real-number evaluation. -/
theorem c8_powi_real_formula_counterexample :
    Dual.powi ⟨FP.finite 0, FP.finite 1⟩ 0 ≠
      ⟨FP.finite ((0 : ℝ) ^ (0 : ℤ)),
       FP.finite (((0 : ℤ) : ℝ) * (0 : ℝ) ^ ((0 : ℤ) - 1) * 1)⟩ := by
  have hw : wrapI32 (-1) = -1 :=
    wrapI32_eq_self (-1) (by norm_num) (by norm_num)
  simp [Dual.powi, FP.fpowi, FP.mul, FP.nan_mul, hw]

/-- C8 amended: for an i32 exponent n that is strictly above i32::MIN (so
that the decrement n - 1 in the tangent does not overflow) and below the
i32 bound, powi follows value x^n and tangent n * x^(n-1) * dx as exact
real formulas whenever x is non-zero or n is at least 1 (the remaining cases
x = 0, n less than or equal to 0 produce special values, see C10); and the
two concrete examples of the claim hold: powi((3,1),2) = (9,6) and
powi((3,1),0) = (1,0). -/
theorem c8_powi_amended :
    (∀ (x dx : ℝ) (n : ℤ), -2147483648 < n → n < 2147483648 → x ≠ 0 ∨ 1 ≤ n →
      Dual.powi ⟨FP.finite x, FP.finite dx⟩ n =
        ⟨FP.finite (x ^ n), FP.finite ((n : ℝ) * x ^ (n - 1) * dx)⟩) ∧
    Dual.powi ⟨FP.finite 3, FP.finite 1⟩ 2 = ⟨FP.finite 9, FP.finite 6⟩ ∧
    Dual.powi ⟨FP.finite 3, FP.finite 1⟩ 0 = ⟨FP.finite 1, FP.finite 0⟩ := by
  have main : ∀ (x dx : ℝ) (n : ℤ), -2147483648 < n → n < 2147483648 →
      x ≠ 0 ∨ 1 ≤ n →
      Dual.powi ⟨FP.finite x, FP.finite dx⟩ n =
        ⟨FP.finite (x ^ n), FP.finite ((n : ℝ) * x ^ (n - 1) * dx)⟩ := by
    intro x dx n hlo hhi h
    have hw : wrapI32 (n - 1) = n - 1 :=
      wrapI32_eq_self (n - 1) (by omega) (by omega)
    have h1 : ¬ (x = 0 ∧ n < 0) := by
      rcases h with h | h
      · exact fun hc => h hc.1
      · exact fun hc => absurd hc.2 (by omega)
    have h2 : ¬ (x = 0 ∧ n - 1 < 0) := by
      rcases h with h | h
      · exact fun hc => h hc.1
      · exact fun hc => absurd hc.2 (by omega)
    have hval : FP.fpowi (FP.finite x) n = FP.finite (x ^ n) := by
      simp only [FP.fpowi]
      rw [if_neg h1]
    have htan : FP.fpowi (FP.finite x) (wrapI32 (n - 1)) = FP.finite (x ^ (n - 1)) := by
      rw [hw]
      simp only [FP.fpowi]
      rw [if_neg h2]
    simp [Dual.powi, FP.mul, hval, htan, mul_assoc]
  refine ⟨main, ?_, ?_⟩
  · have h := main 3 1 2 (by norm_num) (by norm_num) (Or.inl (by norm_num))
    rw [h]
    norm_num
  · have h := main 3 1 0 (by norm_num) (by norm_num) (Or.inl (by norm_num))
    rw [h]
    norm_num

/-- Witness for C8 (amended) at x = 2, dx = 1, n = 3. -/
theorem c8_powi_amended_witness :
    Dual.powi ⟨FP.finite 2, FP.finite 1⟩ 3 =
      ⟨FP.finite ((2 : ℝ) ^ (3 : ℤ)),
       FP.finite (((3 : ℤ) : ℝ) * (2 : ℝ) ^ ((3 : ℤ) - 1) * 1)⟩ :=
  c8_powi_amended.1 2 1 3 (by norm_num) (by norm_num) (Or.inl (by norm_num))

/-- C1: the spec says exp((x,dx)) has tangent e^x * dx.  The code computes
the tangent as `self.x * self.dx.exp()`, that is x * e^dx.  At the input
(x = 0, dx = 1) the code produces tangent 0, while the spec formula gives
e^0 * 1 = 1. -/
theorem c1_exp_tangent_bug :
    Dual.exp ⟨FP.finite 0, FP.finite 1⟩ = ⟨FP.finite 1, FP.finite 0⟩ ∧
    FP.finite (0 : ℝ) ≠ FP.finite (Real.exp 0 * 1) := by
  constructor
  · simp [Dual.exp, FP.fexp, FP.mul, Real.exp_zero]
  · simp [Real.exp_zero]

/-- C2: seeding (x = 0, dx = 1) through sigmoid yields tangent 0, because the
exp tangent bug zeroes the tangent channel at this point, while the claimed
closed form sigmoid(0) * (1 - sigmoid(0)) equals 1/4. -/
theorem c2_sigmoid_identity_bug :
    Dual.sigmoid ⟨FP.finite 0, FP.finite 1⟩ = ⟨FP.finite (1 / 2), FP.finite 0⟩ ∧
    (0 : ℝ) ≠ (1 / (Real.exp (-0) + 1)) * (1 - 1 / (Real.exp (-0) + 1)) := by
  constructor
  · norm_num [Dual.sigmoid, Dual.neg, Dual.exp, Dual.addScalar, scalarDivDual,
      FP.neg, FP.fexp, FP.mul, FP.add, FP.div, Real.exp_zero]
  · norm_num [Real.exp_zero]

/-- C6: adding or subtracting a scalar leaves the tangent component exactly
equal to the input tangent; only the value component changes, to x + c
respectively x - c. -/
theorem c6_scalar_add_sub_tangent_frame :
    ∀ (a : Dual) (c : FP),
      (Dual.addScalar a c).dx = a.dx ∧ (Dual.subScalar a c).dx = a.dx ∧
      (Dual.addScalar a c).x = FP.add a.x c ∧ (Dual.subScalar a c).x = FP.sub a.x c := by
  intro a c
  exact ⟨rfl, rfl, rfl, rfl⟩

/-- Witness for C6 at (x=2, dx=1) and c = 5. -/
theorem c6_scalar_add_sub_tangent_frame_witness :
    (Dual.addScalar ⟨FP.finite 2, FP.finite 1⟩ (FP.finite 5)).dx = FP.finite 1 ∧
    (Dual.subScalar ⟨FP.finite 2, FP.finite 1⟩ (FP.finite 5)).dx = FP.finite 1 :=
  ⟨(c6_scalar_add_sub_tangent_frame ⟨FP.finite 2, FP.finite 1⟩ (FP.finite 5)).1,
   (c6_scalar_add_sub_tangent_frame ⟨FP.finite 2, FP.finite 1⟩ (FP.finite 5)).2.1⟩

/-- C9: dual multiplication is commutative, both in the value component and in
the tangent component. -/
theorem c9_mul_comm : ∀ a b : Dual, Dual.mul a b = Dual.mul b a := by
  intro a b
  rw [Dual.mul, Dual.mul, FP.mul_swap a.x b.x, FP.mul_swap a.x b.dx,
    FP.mul_swap a.dx b.x, FP.add_swap]

/-- Witness for C9 at a = (2,1), b = (3,0). -/
theorem c9_mul_comm_witness :
    Dual.mul ⟨FP.finite 2, FP.finite 1⟩ ⟨FP.finite 3, FP.finite 0⟩ =
      Dual.mul ⟨FP.finite 3, FP.finite 0⟩ ⟨FP.finite 2, FP.finite 1⟩ :=
  c9_mul_comm ⟨FP.finite 2, FP.finite 1⟩ ⟨FP.finite 3, FP.finite 0⟩

/-- C10: powi((x=0, dx), 0) has value 1 but NaN tangent for every tangent dx:
the tangent is computed as (0 as f64) * 0.powi(-1) * dx = 0 * (+inf) * dx,
and zero times infinity is NaN. -/
theorem c10_powi_zero_base_zero_exponent :
    ∀ dx : FP, Dual.powi ⟨FP.finite 0, dx⟩ 0 = ⟨FP.finite 1, FP.nan⟩ := by
  intro dx
  have hw : wrapI32 (-1) = -1 :=
    wrapI32_eq_self (-1) (by norm_num) (by norm_num)
  simp [Dual.powi, FP.fpowi, FP.mul, FP.nan_mul, hw]

/-- Witness for C10 at dx = 1. -/
theorem c10_powi_zero_base_zero_exponent_witness :
    Dual.powi ⟨FP.finite 0, FP.finite 1⟩ 0 = ⟨FP.finite 1, FP.nan⟩ :=
  c10_powi_zero_base_zero_exponent (FP.finite 1)

end

end DualAD
